import Mathlib

/-!
# Verification of the MeigaHub backend lifecycle orchestrator

Shallow embedding of `app/backend_manager.py` (class `BackendManager`).

Modelling conventions:
* A backend descriptor's configuration callables (`get_url`, `get_start_command`, ...)
  are replaced by the plain values they return for the duration of one call
  (configuration is not reloaded during a single `ensure` call).
* Launch/stop commands are represented by their token lists (the result of
  `shlex.split`); the empty list stands for an unset command, matching
  `bool(command)` on the configuration string.
* OS process handles (`subprocess.Popen`) become `Proc` values carrying a pid and
  a liveness bit (`poll() is None`).
* All I/O outcomes — HTTP health probes, stop-command / terminate failures,
  readiness polling — are supplied by an `Env` oracle.  Health probes are indexed
  by a per-call counter because one call may probe the same backend twice.
* Python exceptions become `Except MErr`; each distinct `raise` site of the
  source maps to one `MErr` constructor.
* Every externally visible action is recorded in an event trace (`Ev`), so that
  "exactly one stop", "no other backend touched" and ordering claims are
  statements about the trace and the final state.
* Filenames are ASCII here, so `str.lower` is modelled by an ASCII lowering.
-/

namespace MeigaHub

/-- A live OS process handle: `alive = true` models `poll() is None`. -/
structure Proc where
  pid : Nat
  alive : Bool
deriving Repr, DecidableEq

/-- `desc.process and desc.process.poll() is None` from the source. -/
def procAlive : Option Proc → Bool
  | some p => p.alive
  | none => false

/-- `_BackendDescriptor`: per-backend configuration snapshot plus mutable
`process` handle and `current_model`. -/
structure Descriptor where
  name : String
  url : String
  health_path : String
  model_name : String
  start_command : List String
  stop_command : List String
  supports_dynamic_model : Bool
  process : Option Proc
  current_model : Option String
deriving Repr, DecidableEq

/-- The orchestrator state: `_active_backend`, `_busy` and the registry
(`Dict` iteration order becomes list order). -/
structure Manager where
  active_backend : Option String
  busy : Bool
  backends : List Descriptor
deriving Repr, DecidableEq

/-- Error kinds; one constructor per distinct `raise` site of the source. -/
inductive MErr where
  | invalidBackend (name : String)
  | invalidModel
  | autoSwitchDisabled
  | backendUnavailable (name : String)
  | backendTimeout (name : String)
  | stopFailed (name : String)
deriving Repr, DecidableEq

/-- Observable events of one `ensure_backend_with_model` call. -/
inductive Ev where
  | acquire
  | probe (name : String) (ok : Bool)
  | busySet (b : Bool)
  | stopOne (name : String)
  | startOne (name : String) (model : Option String)
  | spawn (name : String) (cmd : List String)
  | waitReady (name : String) (ok : Bool)
deriving Repr, DecidableEq

/-- Oracle for configuration policy and every I/O outcome of one call. -/
structure Env where
  auto_switch_backend : Bool
  models_dir : String
  probe : Nat → String → Bool
  stopRaises : String → Bool
  waitReady : String → Bool
  newPid : Nat

/-- Python truthiness of the `Optional[str]` model argument. -/
def truthy : Option String → Bool
  | some s => s != ""
  | none => false

/-- `model_name or desc.get_model_name()` (lines 221 and 259 of the source). -/
def modelOrDefault (model : Option String) (d : Descriptor) : String :=
  match model with
  | some s => if s == "" then d.model_name else s
  | none => d.model_name

/-- ASCII `str.lower` on one character. -/
def lowerChar (c : Char) : Char :=
  if 'A' ≤ c ∧ c ≤ 'Z' then Char.ofNat (c.toNat + 32) else c

/-- Characters after the last path separator (`os.path.basename`, POSIX rule). -/
def basenameAux : List Char → List Char → List Char
  | acc, [] => acc
  | acc, c :: cs => if c = '/' then basenameAux [] cs else basenameAux (acc ++ [c]) cs

def basenameChars (l : List Char) : List Char := basenameAux [] l

def basename (s : String) : String := String.mk (basenameChars s.data)

/-- `filename.lower().endswith(".gguf")`. -/
def endsGguf (f : String) : Bool :=
  List.isSuffixOf ".gguf".data (f.data.map lowerChar)

/-- `BackendManager._safe_filename` (lines 357-364). -/
def safe_filename (name : String) : Except MErr String :=
  let filename := basename name
  if endsGguf filename = false then .error .invalidModel
  else if filename = "." ∨ filename = ".." then .error .invalidModel
  else .ok filename

/-- Does the string start with the path separator? -/
def startsWithSlash (f : String) : Bool :=
  match f.data with
  | [] => false
  | c :: _ => c = '/'

/-- Does the string end with the path separator? -/
def endsWithSlash (s : String) : Bool :=
  match s.data.getLast? with
  | some c => c = '/'
  | none => false

/-- `os.path.join(dir, f)` (POSIX rule). -/
def joinPath (dir f : String) : String :=
  if startsWithSlash f then f
  else if dir = "" then f
  else if endsWithSlash dir then dir ++ f
  else dir ++ "/" ++ f

/-- The `--model` replace-or-append logic of `_build_command` (lines 349-355):
replace the token after the first `--model` when one exists, otherwise append.
When `--model` is the final token the replacement guard fails and the source
falls through to the append. -/
def injectModel (base : List String) (p : String) : List String :=
  match base.findIdx? (· == "--model") with
  | some idx => if idx + 1 < base.length then base.set (idx + 1) p else base ++ ["--model", p]
  | none => base ++ ["--model", p]

/-- `BackendManager._build_command` (lines 334-355) at the token level. -/
def build_command (models_dir : String) (supports_dynamic : Bool)
    (base : List String) (model : Option String) : Except MErr (List String) :=
  match model with
  | none => .ok base
  | some s =>
    if supports_dynamic = false ∨ s = "" then .ok base
    else
      match safe_filename s with
      | .error e => .error e
      | .ok safe_name => .ok (injectModel base (joinPath models_dir safe_name))

/-- `BackendManager._stop_one` (lines 303-328).  With no live process the call
is a no-op (both early returns).  With a live process, the stop command /
terminate / wait sequence either raises (oracle `stopRaises`) leaving the
descriptor untouched, or clears the handle. -/
def stop_one (env : Env) (d : Descriptor) : Except MErr Descriptor :=
  if procAlive d.process then
    if env.stopRaises d.name then .error (.stopFailed d.name)
    else .ok { d with process := none }
  else .ok d

/-- `BackendManager._start_one` (lines 283-301).  Returns the updated
descriptor, the `started` boolean of the source, and the spawn events. -/
def start_one (env : Env) (d : Descriptor) (model : Option String) :
    Except MErr (Descriptor × Bool × List Ev) :=
  if procAlive d.process then .ok (d, true, [])
  else if d.start_command = [] then .ok (d, false, [])
  else
    match build_command env.models_dir d.supports_dynamic_model d.start_command model with
    | .error e => .error e
    | .ok cmd => .ok ({ d with process := some ⟨env.newPid, true⟩ }, true, [Ev.spawn d.name cmd])

/-- `self._backends[target]` lookup. -/
def findBackend (m : Manager) (t : String) : Option Descriptor :=
  m.backends.find? (fun d => d.name == t)

/-- Write back an in-place mutation of the descriptor named `d.name`
(the registry holds one descriptor per name). -/
def updateBackend (m : Manager) (d : Descriptor) : Manager :=
  { m with backends := m.backends.map (fun x => if x.name == d.name then d else x) }

/-- The `for name, other in self._backends.items(): if name != target:
_stop_one(other)` loop (lines 242-244).  A raising stop aborts the loop:
there is no exception handler around the body. -/
def stopOthers (env : Env) (target : String) :
    List Descriptor → List Descriptor × List Ev × Option MErr
  | [] => ([], [], none)
  | d :: rest =>
    if d.name == target then
      let r := stopOthers env target rest
      (d :: r.1, r.2)
    else
      match stop_one env d with
      | .ok d' =>
        let r := stopOthers env target rest
        (d' :: r.1, Ev.stopOne d.name :: r.2.1, r.2.2)
      | .error err => (d :: rest, [Ev.stopOne d.name], some err)

deriving instance DecidableEq for Except

/-- Result of one `ensure_backend_with_model` call: final orchestrator state,
event trace, and normal / exceptional outcome. -/
structure RunResult where
  state : Manager
  trace : List Ev
  res : Except MErr Unit
deriving Repr, DecidableEq

/-- Successful epilogue of the switch (lines 258-259 plus the `finally`). -/
def finishSwitch (m : Manager) (d : Descriptor) (target : String)
    (model : Option String) (tr : List Ev) : RunResult :=
  ⟨{ (updateBackend m { d with current_model := some (modelOrDefault model d) }) with
      active_backend := some target, busy := false },
   tr ++ [Ev.busySet false], .ok ()⟩

/-- The `self._busy = True; try: ... finally: self._busy = False` block
(lines 239-263): stop every other backend, start the target, re-probe or wait
for readiness, then commit. -/
def doSwitch (env : Env) (m : Manager) (desc : Descriptor) (target : String)
    (model : Option String) (tr : List Ev) (k : Nat) : RunResult :=
  let m1 : Manager := { m with busy := true }
  let tr1 := tr ++ [Ev.busySet true]
  match stopOthers env target m1.backends with
  | (ds, sevs, some e) =>
    ⟨{ m1 with backends := ds, busy := false }, tr1 ++ sevs ++ [Ev.busySet false], .error e⟩
  | (ds, sevs, none) =>
    let m2 : Manager := { m1 with backends := ds }
    let tr2 := tr1 ++ sevs
    match start_one env desc model with
    | .error e =>
      ⟨{ m2 with busy := false }, tr2 ++ [Ev.startOne target model, Ev.busySet false], .error e⟩
    | .ok (d2, started, startevs) =>
      let m3 := updateBackend m2 d2
      let tr3 := tr2 ++ [Ev.startOne target model] ++ startevs
      if started = false then
        if env.probe k target = false then
          ⟨{ m3 with busy := false }, tr3 ++ [Ev.probe target false, Ev.busySet false],
           .error (.backendUnavailable target)⟩
        else finishSwitch m3 d2 target model (tr3 ++ [Ev.probe target true])
      else
        if env.waitReady target then
          finishSwitch m3 d2 target model (tr3 ++ [Ev.waitReady target true])
        else
          ⟨{ m3 with busy := false }, tr3 ++ [Ev.waitReady target false, Ev.busySet false],
           .error (.backendTimeout target)⟩

/-- Policy gate and pre-flight check (lines 224-237), then the switch. -/
def ensureSwitch (env : Env) (m : Manager) (desc : Descriptor) (target : String)
    (model : Option String) (tr : List Ev) (k : Nat) : RunResult :=
  if env.auto_switch_backend = false then ⟨m, tr, .error .autoSwitchDisabled⟩
  else if desc.start_command = [] then
    if env.probe k target = false then
      ⟨m, tr ++ [Ev.probe target false], .error (.backendUnavailable target)⟩
    else doSwitch env m desc target model (tr ++ [Ev.probe target true]) (k + 1)
  else doSwitch env m desc target model tr k

/-- Case A of the source (lines 196-211): target already active.  The in-place
model swap neither touches other backends nor sets `busy`. -/
def ensureActive (env : Env) (m : Manager) (desc : Descriptor)
    (model : Option String) : RunResult :=
  if desc.supports_dynamic_model = true ∧ truthy model = true ∧ model ≠ desc.current_model then
    match stop_one env desc with
    | .error e => ⟨m, [Ev.acquire, Ev.stopOne desc.name], .error e⟩
    | .ok d1 =>
      match start_one env d1 model with
      | .error e =>
        ⟨updateBackend m d1, [Ev.acquire, Ev.stopOne desc.name, Ev.startOne desc.name model],
         .error e⟩
      | .ok (d2, _started, startevs) =>
        let tr := [Ev.acquire, Ev.stopOne desc.name, Ev.startOne desc.name model] ++ startevs
        if env.waitReady desc.name then
          ⟨updateBackend m { d2 with current_model := model },
           tr ++ [Ev.waitReady desc.name true], .ok ()⟩
        else
          ⟨updateBackend m d2, tr ++ [Ev.waitReady desc.name false],
           .error (.backendTimeout desc.name)⟩
  else ⟨m, [Ev.acquire], .ok ()⟩

/-- `BackendManager.ensure_backend_with_model` (lines 182-263). -/
def ensure_backend_with_model (env : Env) (m : Manager) (target : String)
    (model : Option String) : RunResult :=
  match findBackend m target with
  | none => ⟨m, [], .error (.invalidBackend target)⟩
  | some desc =>
    if m.active_backend = some target then
      ensureActive env m desc model
    else if m.active_backend = none then
      if env.probe 0 target then
        ⟨{ (updateBackend m { desc with current_model := some (modelOrDefault model desc) }) with
            active_backend := some target },
         [Ev.acquire, Ev.probe target true], .ok ()⟩
      else ensureSwitch env m desc target model [Ev.acquire, Ev.probe target false] 1
    else ensureSwitch env m desc target model [Ev.acquire] 0

/-- `BackendManager.ensure_backend` (lines 179-180). -/
def ensure_backend (env : Env) (m : Manager) (target : String) : RunResult :=
  ensure_backend_with_model env m target none

/-! ### Derived notions used by the claim statements -/

/-- Does `stop_one` succeed on this descriptor in this environment? -/
def stopOk (env : Env) (d : Descriptor) : Bool :=
  !(procAlive d.process && env.stopRaises d.name)

/-- The descriptor after a successful `stop_one`. -/
def stopped (env : Env) (d : Descriptor) : Descriptor :=
  if procAlive d.process then { d with process := none } else d

/-- The registry after a fully successful stop-others sweep. -/
def stopAllMap (env : Env) (target : String) (ds : List Descriptor) : List Descriptor :=
  ds.map (fun x => if x.name == target then x else stopped env x)

/-- `true` iff the trace sets `busy` before its first stop or start action
(vacuously `true` when no stop/start occurs). -/
def busyBeforeActions : List Ev → Bool
  | [] => true
  | Ev.busySet true :: _ => true
  | Ev.stopOne _ :: _ => false
  | Ev.startOne _ _ :: _ => false
  | _ :: rest => busyBeforeActions rest

/-! ### Concrete fixtures for witnesses and counterexamples -/

def dLlm : Descriptor :=
  ⟨"llm", "http://127.0.0.1:8080", "/health", "default.gguf",
   ["llama-server"], [], true, none, none⟩

def dWhisperLive : Descriptor :=
  ⟨"whisper", "http://127.0.0.1:9000", "/health", "base",
   ["whisper-server"], [], false, some ⟨7, true⟩, none⟩

def dImageLive : Descriptor :=
  ⟨"image", "http://127.0.0.1:7860", "/health", "sdxl",
   [], [], false, some ⟨4, true⟩, none⟩

def dImageNoStart : Descriptor := { dImageLive with process := none }

def dLlmActive : Descriptor :=
  { dLlm with
    process := some ⟨5, true⟩, current_model := some "a.gguf",
    start_command := ["llama-server", "--model", "/models/a.gguf"] }

def envBase : Env := ⟨true, "/models", fun _ _ => false, fun _ => false, fun _ => true, 42⟩

def envNoSwitch : Env := { envBase with auto_switch_backend := false }

def envStopFail : Env := { envBase with stopRaises := fun n => n == "whisper" }

def envWaitFail : Env := { envBase with waitReady := fun _ => false }

def envProbeRace : Env := { envBase with probe := fun k _ => k == 0 }

def mgrLlmImage : Manager := ⟨some "llm", false, [dLlm, dImageNoStart]⟩

def mgrWhisperActive : Manager := ⟨some "whisper", false, [dLlm, dWhisperLive]⟩

def mgrSwapReady : Manager := ⟨some "llm", false, [dLlmActive, dWhisperLive]⟩

def mgrStopFail : Manager := ⟨some "whisper", false, [dWhisperLive, dImageLive, dLlm]⟩

def mgrWhisperImage : Manager := ⟨some "whisper", false, [dWhisperLive, dImageNoStart]⟩

/-! ### Helper lemmas -/

theorem find?_name (l : List Descriptor) (t : String) (d : Descriptor)
    (h : l.find? (fun x => x.name == t) = some d) : d.name = t := by
  induction l with
  | nil => simp [List.find?] at h
  | cons a rest ih =>
    simp only [List.find?] at h
    by_cases ha : (a.name == t) = true
    · rw [ha] at h
      simp only [Option.some.injEq] at h
      rw [← h]
      exact eq_of_beq ha
    · rw [Bool.not_eq_true] at ha
      rw [ha] at h
      exact ih h

theorem findBackend_name {m : Manager} {t : String} {d : Descriptor}
    (h : findBackend m t = some d) : d.name = t :=
  find?_name m.backends t d h

theorem updateBackend_active (m : Manager) (d : Descriptor) :
    (updateBackend m d).active_backend = m.active_backend := rfl

theorem updateBackend_busy (m : Manager) (d : Descriptor) :
    (updateBackend m d).busy = m.busy := rfl

theorem mem_updateBackend {m : Manager} {d x : Descriptor}
    (hx : x ∈ m.backends) (hne : x.name ≠ d.name) :
    x ∈ (updateBackend m d).backends := by
  unfold updateBackend
  refine List.mem_map.mpr ⟨x, hx, ?_⟩
  simp [hne]

theorem stop_one_eq (env : Env) (d : Descriptor) :
    stop_one env d =
      if stopOk env d then .ok (stopped env d) else .error (.stopFailed d.name) := by
  by_cases h1 : procAlive d.process = true <;> by_cases h2 : env.stopRaises d.name = true <;>
    simp [stop_one, stopOk, stopped, h1, h2]

theorem stopped_not_alive (env : Env) (d : Descriptor) :
    procAlive (stopped env d).process = false := by
  unfold stopped
  by_cases h : procAlive d.process = true
  · rw [if_pos h]
    rfl
  · rw [if_neg h]
    simpa using h

theorem stopped_name (env : Env) (d : Descriptor) : (stopped env d).name = d.name := by
  unfold stopped
  by_cases h : procAlive d.process = true
  · rw [if_pos h]
  · rw [if_neg h]

theorem stopped_start_command (env : Env) (d : Descriptor) :
    (stopped env d).start_command = d.start_command := by
  unfold stopped
  split <;> rfl

theorem stopped_dynamic (env : Env) (d : Descriptor) :
    (stopped env d).supports_dynamic_model = d.supports_dynamic_model := by
  unfold stopped
  split <;> rfl

theorem stopped_set_process (env : Env) (d : Descriptor) (p : Option Proc) :
    ({ stopped env d with process := p } : Descriptor) = { d with process := p } := by
  unfold stopped
  split <;> rfl

theorem stopOthers_all_ok {env : Env} {target : String} {ds : List Descriptor}
    (h : ∀ x ∈ ds, x.name = target ∨ stopOk env x = true) :
    stopOthers env target ds =
      (stopAllMap env target ds,
       (ds.filter (fun x => x.name != target)).map (fun x => Ev.stopOne x.name),
       none) := by
  induction ds with
  | nil => simp [stopOthers, stopAllMap]
  | cons d rest ih =>
    have hrest : ∀ x ∈ rest, x.name = target ∨ stopOk env x = true :=
      fun x hx => h x (List.mem_cons_of_mem d hx)
    by_cases hn : d.name = target
    · simp [stopOthers, stopAllMap, hn, ih hrest, List.filter_cons]
    · have hok : stopOk env d = true := (h d (List.mem_cons_self d rest)).resolve_left hn
      simp [stopOthers, stopAllMap, hn, stop_one_eq, hok, ih hrest, List.filter_cons]

theorem stopOthers_first_err {env : Env} {target : String}
    (pre : List Descriptor) (b : Descriptor) (post : List Descriptor)
    (hpre : ∀ x ∈ pre, x.name = target ∨ stopOk env x = true)
    (hb : ¬ b.name = target) (hfail : stopOk env b = false) :
    stopOthers env target (pre ++ b :: post) =
      (stopAllMap env target pre ++ b :: post,
       (pre.filter (fun x => x.name != target)).map (fun x => Ev.stopOne x.name)
         ++ [Ev.stopOne b.name],
       some (.stopFailed b.name)) := by
  induction pre with
  | nil => simp [stopOthers, stopAllMap, hb, stop_one_eq, hfail]
  | cons d rest ih =>
    have hrest : ∀ x ∈ rest, x.name = target ∨ stopOk env x = true :=
      fun x hx => hpre x (List.mem_cons_of_mem d hx)
    by_cases hn : d.name = target
    · simp [stopOthers, stopAllMap, hn, ih hrest, List.filter_cons]
    · have hok : stopOk env d = true := (hpre d (List.mem_cons_self d rest)).resolve_left hn
      simp [stopOthers, stopAllMap, hn, stop_one_eq, hok, ih hrest, List.filter_cons]

theorem doSwitch_stop_err (env : Env) (m : Manager) (desc : Descriptor) (t : String)
    (model : Option String) (tr : List Ev) (k : Nat)
    (pre : List Descriptor) (b : Descriptor) (post : List Descriptor)
    (hsplit : m.backends = pre ++ b :: post)
    (hpre : ∀ x ∈ pre, x.name = t ∨ stopOk env x = true)
    (hb : ¬ b.name = t) (hfail : stopOk env b = false) :
    doSwitch env m desc t model tr k =
      ⟨⟨m.active_backend, false, stopAllMap env t pre ++ b :: post⟩,
       tr ++ [Ev.busySet true] ++
         ((pre.filter (fun x => x.name != t)).map (fun x => Ev.stopOne x.name) ++
           [Ev.stopOne b.name]) ++ [Ev.busySet false],
       .error (.stopFailed b.name)⟩ := by
  unfold doSwitch
  dsimp only
  rw [hsplit, stopOthers_first_err pre b post hpre hb hfail]

theorem start_one_name (env : Env) (d : Descriptor) (model : Option String)
    (d2 : Descriptor) (st : Bool) (evs : List Ev)
    (h : start_one env d model = .ok (d2, st, evs)) : d2.name = d.name := by
  unfold start_one at h
  split at h
  · simp only [Except.ok.injEq, Prod.mk.injEq] at h
    rw [← h.1]
  · split at h
    · simp only [Except.ok.injEq, Prod.mk.injEq] at h
      rw [← h.1]
    · split at h
      · exact absurd h (by simp)
      · simp only [Except.ok.injEq, Prod.mk.injEq] at h
        rw [← h.1]

theorem stopAllMap_not_alive (env : Env) (t : String) (l : List Descriptor) :
    ∀ x ∈ stopAllMap env t l, x.name ≠ t → procAlive x.process = false := by
  induction l with
  | nil =>
    intro x hx
    simp [stopAllMap] at hx
  | cons z rest ih =>
    intro x hx hxt
    simp only [stopAllMap, List.map_cons, List.mem_cons] at hx
    rcases hx with hx | hx
    · by_cases hzt : z.name = t
      · have h1 : (z.name == t) = true := beq_iff_eq.mpr hzt
        rw [if_pos h1] at hx
        exact absurd (by rw [hx, hzt]) hxt
      · have h1 : ¬((z.name == t) = true) := by simpa using hzt
        rw [if_neg h1] at hx
        rw [hx]
        exact stopped_not_alive env z
    · exact ih x (by simpa [stopAllMap] using hx) hxt

theorem update_after_stopAll_not_alive (env : Env) (t : String) (d2 : Descriptor)
    (hd2 : d2.name = t) (l : List Descriptor) :
    ∀ x ∈ (stopAllMap env t l).map (fun y => if y.name == d2.name then d2 else y),
      x.name ≠ t → procAlive x.process = false := by
  induction l with
  | nil =>
    intro x hx
    simp [stopAllMap] at hx
  | cons z rest ih =>
    intro x hx hxt
    simp only [stopAllMap, List.map_cons, List.mem_cons] at hx
    rcases hx with hx | hx
    · by_cases hzt : z.name = t
      · have h1 : (z.name == t) = true := beq_iff_eq.mpr hzt
        have h2 : (z.name == d2.name) = true := beq_iff_eq.mpr (hzt.trans hd2.symm)
        rw [if_pos h1, if_pos h2] at hx
        exact absurd (by rw [hx, hd2]) hxt
      · have h1 : ¬((z.name == t) = true) := by simpa using hzt
        rw [if_neg h1] at hx
        have h2 : ¬(((stopped env z).name == d2.name) = true) := by
          rw [stopped_name, hd2]
          simpa using hzt
        rw [if_neg h2] at hx
        rw [hx]
        exact stopped_not_alive env z
    · exact ih x (by simpa [stopAllMap] using hx) hxt

theorem doSwitch_error_no_rollback (env : Env) (m : Manager) (desc : Descriptor)
    (t : String) (model : Option String) (tr : List Ev) (k : Nat) (e : MErr)
    (hdname : desc.name = t)
    (hstops : ∀ x ∈ m.backends, x.name = t ∨ stopOk env x = true)
    (hfail : (doSwitch env m desc t model tr k).res = .error e) :
    (doSwitch env m desc t model tr k).state.active_backend = m.active_backend ∧
    (doSwitch env m desc t model tr k).state.busy = false ∧
    (∀ x ∈ (doSwitch env m desc t model tr k).state.backends,
      x.name ≠ t → procAlive x.process = false) := by
  unfold doSwitch at hfail ⊢
  dsimp only at hfail ⊢
  rw [@stopOthers_all_ok env t m.backends hstops] at hfail ⊢
  dsimp only at hfail ⊢
  cases hso : start_one env desc model with
  | error e2 =>
    exact ⟨rfl, rfl, fun x hx hxt => stopAllMap_not_alive env t m.backends x hx hxt⟩
  | ok val =>
    obtain ⟨d2, started, sevs⟩ := val
    have hd2 : d2.name = t := by
      rw [start_one_name env desc model d2 started sevs hso, hdname]
    rw [hso] at hfail
    dsimp only at hfail ⊢
    by_cases hst : started = false
    · rw [if_pos hst] at hfail ⊢
      by_cases hp : env.probe k t = false
      · rw [if_pos hp] at hfail ⊢
        refine ⟨rfl, rfl, ?_⟩
        intro x hx hxt
        exact update_after_stopAll_not_alive env t d2 hd2 m.backends x
          (by simpa [updateBackend] using hx) hxt
      · rw [if_neg hp] at hfail
        exact absurd hfail (by simp [finishSwitch])
    · rw [if_neg hst] at hfail ⊢
      by_cases hw : env.waitReady t = true
      · rw [if_pos hw] at hfail
        exact absurd hfail (by simp [finishSwitch])
      · rw [if_neg hw] at hfail ⊢
        refine ⟨rfl, rfl, ?_⟩
        intro x hx hxt
        exact update_after_stopAll_not_alive env t d2 hd2 m.backends x
          (by simpa [updateBackend] using hx) hxt

theorem ensureActive_busy (env : Env) (m : Manager) (d : Descriptor)
    (model : Option String) :
    (ensureActive env m d model).state.busy = m.busy := by
  unfold ensureActive
  repeat' split
  all_goals rfl

theorem doSwitch_busy (env : Env) (m : Manager) (desc : Descriptor) (t : String)
    (model : Option String) (tr : List Ev) (k : Nat) :
    (doSwitch env m desc t model tr k).state.busy = false := by
  unfold doSwitch finishSwitch
  dsimp only
  repeat' split
  all_goals rfl

theorem ensureSwitch_busy (env : Env) (m : Manager) (d : Descriptor) (t : String)
    (model : Option String) (tr : List Ev) (k : Nat) (hbusy : m.busy = false) :
    (ensureSwitch env m d t model tr k).state.busy = false := by
  unfold ensureSwitch
  repeat' split
  all_goals first
    | exact hbusy
    | apply doSwitch_busy

theorem doSwitch_busyBefore (env : Env) (m : Manager) (desc : Descriptor) (t : String)
    (model : Option String) (tr : List Ev) (k : Nat)
    (htr : ∀ l, busyBeforeActions (tr ++ l) = busyBeforeActions l) :
    busyBeforeActions (doSwitch env m desc t model tr k).trace = true := by
  unfold doSwitch finishSwitch
  dsimp only
  repeat' split
  all_goals simp only [List.append_assoc, List.cons_append, List.nil_append, htr]
  all_goals rfl

theorem ensureSwitch_busyBefore (env : Env) (m : Manager) (d : Descriptor) (t : String)
    (model : Option String) (tr : List Ev) (k : Nat)
    (hauto : env.auto_switch_backend = true)
    (hpre : d.start_command = [] → env.probe k t = true)
    (htr : ∀ l, busyBeforeActions (tr ++ l) = busyBeforeActions l) :
    busyBeforeActions (ensureSwitch env m d t model tr k).trace = true := by
  unfold ensureSwitch
  rw [if_neg (by simp [hauto])]
  by_cases hc : d.start_command = []
  · rw [if_pos hc, if_neg (by simp [hpre hc])]
    refine doSwitch_busyBefore env m d t model _ (k + 1) ?_
    intro l
    rw [List.append_assoc, htr]
    rfl
  · rw [if_neg hc]
    exact doSwitch_busyBefore env m d t model tr k htr

theorem no_slash_basenameAux (l : List Char) :
    ∀ acc : List Char, '/' ∉ acc → '/' ∉ basenameAux acc l := by
  induction l with
  | nil => intro acc h; simpa [basenameAux] using h
  | cons c cs ih =>
    intro acc h
    unfold basenameAux
    by_cases hc : c = '/'
    · rw [if_pos hc]; exact ih [] (by simp)
    · rw [if_neg hc]
      refine ih (acc ++ [c]) ?_
      simp only [List.mem_append, List.mem_singleton]
      rintro (h1 | h2)
      · exact h h1
      · exact hc h2.symm

theorem basename_no_slash (s : String) : '/' ∉ (basename s).data := by
  unfold basename basenameChars
  exact no_slash_basenameAux s.data [] (by simp)

/-! ### Claim theorems -/

/-- C10: requesting an unregistered backend name fails with `InvalidBackend`
before the mutual-exclusion gate is acquired (the trace has no `acquire`
event, so the call never blocks behind an in-flight transition) and modifies
no state. -/
theorem ensure_invalid_backend_untouched (env : Env) (m : Manager) (t : String)
    (model : Option String) (hfind : findBackend m t = none) :
    (ensure_backend_with_model env m t model).state = m ∧
    (ensure_backend_with_model env m t model).res = .error (.invalidBackend t) ∧
    Ev.acquire ∉ (ensure_backend_with_model env m t model).trace := by
  unfold ensure_backend_with_model
  simp [hfind]

theorem ensure_invalid_backend_untouched_witness :
    findBackend mgrLlmImage "tts" = none ∧
    (ensure_backend_with_model envBase mgrLlmImage "tts" none).state = mgrLlmImage ∧
    (ensure_backend_with_model envBase mgrLlmImage "tts" none).res =
      .error (.invalidBackend "tts") ∧
    Ev.acquire ∉ (ensure_backend_with_model envBase mgrLlmImage "tts" none).trace :=
  ⟨by decide, ensure_invalid_backend_untouched envBase mgrLlmImage "tts" none (by decide)⟩

/-- C4: `ensure_backend(X)` (that is, `ensure_backend_with_model(X, None)`)
with X already active is a no-op: the state is returned unchanged and the
trace holds nothing beyond acquiring the gate. -/
theorem ensure_already_active_noop (env : Env) (m : Manager) (t : String)
    (d : Descriptor) (hfind : findBackend m t = some d)
    (hact : m.active_backend = some t) :
    ensure_backend env m t = ⟨m, [Ev.acquire], .ok ()⟩ := by
  unfold ensure_backend ensure_backend_with_model
  simp only [hfind]
  rw [if_pos hact]
  unfold ensureActive
  rw [if_neg (by simp [truthy])]

theorem ensure_already_active_noop_witness :
    findBackend mgrSwapReady "llm" = some dLlmActive ∧
    mgrSwapReady.active_backend = some "llm" ∧
    ensure_backend envBase mgrSwapReady "llm" = ⟨mgrSwapReady, [Ev.acquire], .ok ()⟩ :=
  ⟨by decide, by decide,
   ensure_already_active_noop envBase mgrSwapReady "llm" dLlmActive (by decide) (by decide)⟩

/-- C2: with a switch required and the auto-switch policy disabled, the call
fails with `AutoSwitchDisabled` and leaves all state untouched; no backend
process is stopped or started. -/
theorem ensure_autoswitch_disabled_untouched (env : Env) (m : Manager) (t : String)
    (d : Descriptor) (model : Option String)
    (hfind : findBackend m t = some d)
    (hact : m.active_backend ≠ some t)
    (hprobe : m.active_backend = none → env.probe 0 t = false)
    (hauto : env.auto_switch_backend = false) :
    (ensure_backend_with_model env m t model).state = m ∧
    (ensure_backend_with_model env m t model).res = .error .autoSwitchDisabled ∧
    (∀ n, Ev.stopOne n ∉ (ensure_backend_with_model env m t model).trace) ∧
    (∀ n mo, Ev.startOne n mo ∉ (ensure_backend_with_model env m t model).trace) := by
  unfold ensure_backend_with_model
  simp only [hfind]
  rw [if_neg hact]
  by_cases hnone : m.active_backend = none
  · rw [if_pos hnone, if_neg (by simp [hprobe hnone])]
    unfold ensureSwitch
    rw [if_pos hauto]
    simp
  · rw [if_neg hnone]
    unfold ensureSwitch
    rw [if_pos hauto]
    simp

theorem ensure_autoswitch_disabled_untouched_witness :
    findBackend mgrWhisperActive "llm" = some dLlm ∧
    mgrWhisperActive.active_backend ≠ some "llm" ∧
    envNoSwitch.auto_switch_backend = false ∧
    (ensure_backend_with_model envNoSwitch mgrWhisperActive "llm" none).state =
      mgrWhisperActive ∧
    (ensure_backend_with_model envNoSwitch mgrWhisperActive "llm" none).res =
      .error .autoSwitchDisabled :=
  ⟨by decide, by decide, by decide,
   (ensure_autoswitch_disabled_untouched envNoSwitch mgrWhisperActive "llm" dLlm none
      (by decide) (by decide) (fun _ => rfl) (by decide)).1,
   (ensure_autoswitch_disabled_untouched envNoSwitch mgrWhisperActive "llm" dLlm none
      (by decide) (by decide) (fun _ => rfl) (by decide)).2.1⟩

/-- C1: with a switch required, auto-switch enabled, a target that has no
start command and whose health probe never answers, the call fails with
`BackendUnavailable` and no other backend's state is touched: the manager
state is exactly the input and the trace holds no stop or start. -/
theorem ensure_no_start_cmd_unavailable (env : Env) (m : Manager) (t : String)
    (d : Descriptor) (model : Option String)
    (hfind : findBackend m t = some d)
    (hact : m.active_backend ≠ some t)
    (hauto : env.auto_switch_backend = true)
    (hcmd : d.start_command = [])
    (hprobe : ∀ k, env.probe k t = false) :
    (ensure_backend_with_model env m t model).state = m ∧
    (ensure_backend_with_model env m t model).res = .error (.backendUnavailable t) ∧
    (∀ n, Ev.stopOne n ∉ (ensure_backend_with_model env m t model).trace) ∧
    (∀ n mo, Ev.startOne n mo ∉ (ensure_backend_with_model env m t model).trace) := by
  unfold ensure_backend_with_model
  simp only [hfind]
  rw [if_neg hact]
  by_cases hnone : m.active_backend = none
  · rw [if_pos hnone, if_neg (by simp [hprobe 0])]
    unfold ensureSwitch
    rw [if_neg (by simp [hauto]), if_pos hcmd, if_pos (hprobe 1)]
    simp
  · rw [if_neg hnone]
    unfold ensureSwitch
    rw [if_neg (by simp [hauto]), if_pos hcmd, if_pos (hprobe 0)]
    simp

theorem ensure_no_start_cmd_unavailable_witness :
    findBackend mgrLlmImage "image" = some dImageNoStart ∧
    dImageNoStart.start_command = [] ∧
    (∀ k, envBase.probe k "image" = false) ∧
    (ensure_backend_with_model envBase mgrLlmImage "image" none).state = mgrLlmImage ∧
    (ensure_backend_with_model envBase mgrLlmImage "image" none).res =
      .error (.backendUnavailable "image") :=
  ⟨by decide, by decide, fun _ => rfl,
   (ensure_no_start_cmd_unavailable envBase mgrLlmImage "image" dImageNoStart none
      (by decide) (by decide) (by decide) (by decide) (fun _ => rfl)).1,
   (ensure_no_start_cmd_unavailable envBase mgrLlmImage "image" dImageNoStart none
      (by decide) (by decide) (by decide) (by decide) (fun _ => rfl)).2.1⟩

/-- C6: for a dynamic-model backend and a non-empty requested model name, the
injected model path is the configured models directory joined with the
basename of the request; a request whose basename lacks the `.gguf` extension
(case-insensitively) is rejected with `InvalidModel`, and every accepted path
stays inside the models directory (its filename component holds no path
separator and is neither empty nor `.` nor `..`). -/
theorem build_command_model_path_validation (dir : String) (base : List String)
    (s : String) (hs : s ≠ "") :
    (endsGguf (basename s) = false →
      build_command dir true base (some s) = .error .invalidModel) ∧
    (endsGguf (basename s) = true →
      build_command dir true base (some s) =
        .ok (injectModel base (joinPath dir (basename s))) ∧
      '/' ∉ (basename s).data ∧
      basename s ≠ "" ∧ basename s ≠ "." ∧ basename s ≠ "..") := by
  constructor
  · intro hng
    have hsf : safe_filename s = .error .invalidModel := by
      simp [safe_filename, hng]
    simp [build_command, hs, hsf]
  · intro hg
    have hdot : basename s ≠ "." := by
      intro h
      rw [h] at hg
      exact absurd hg (by decide)
    have hdd : basename s ≠ ".." := by
      intro h
      rw [h] at hg
      exact absurd hg (by decide)
    have hemp : basename s ≠ "" := by
      intro h
      rw [h] at hg
      exact absurd hg (by decide)
    have hsf : safe_filename s = .ok (basename s) := by
      simp [safe_filename, hg, hdot, hdd]
    exact ⟨by simp [build_command, hs, hsf], basename_no_slash s, hemp, hdot, hdd⟩

theorem build_command_model_path_validation_witness :
    ("../evil.GGUF" : String) ≠ "" ∧
    (endsGguf (basename "../evil.GGUF") = true →
      build_command "/models" true ["llama-server"] (some "../evil.GGUF") =
        .ok (injectModel ["llama-server"] (joinPath "/models" (basename "../evil.GGUF"))) ∧
      '/' ∉ (basename "../evil.GGUF").data ∧
      basename "../evil.GGUF" ≠ "" ∧
      basename "../evil.GGUF" ≠ "." ∧
      basename "../evil.GGUF" ≠ "..") ∧
    build_command "/models" true ["llama-server"] (some "evil.txt") =
      .error .invalidModel :=
  ⟨by decide,
   (build_command_model_path_validation "/models" ["llama-server"] "../evil.GGUF"
      (by decide)).2,
   (build_command_model_path_validation "/models" ["llama-server"] "evil.txt"
      (by decide)).1 (by decide)⟩

/-- C7 counterexample: with `--model` as the final configured token, the
source cannot replace the (nonexistent) following token; it falls through and
appends a second `--model` plus the resolved path, so the token list grows —
refuting "the token immediately following it is replaced ... and nothing else
changes" for this input. -/
theorem build_command_trailing_model_flag_cex :
    ("--model" : String) ∈ (["llama-server", "--model"] : List String) ∧
    build_command "/models" true ["llama-server", "--model"] (some "a.gguf") =
      .ok ["llama-server", "--model", "--model", "/models/a.gguf"] ∧
    (["llama-server", "--model", "--model", "/models/a.gguf"] : List String).length ≠
      (["llama-server", "--model"] : List String).length := by
  exact ⟨by decide, by decide, by decide⟩

/-- C7 (amended): for a dynamic-model backend and an accepted non-empty model
name, if `--model` occurs in the configured tokens and is not the final
token, the token after its first occurrence is replaced by the resolved path;
otherwise — `--model` absent or final — `--model` and the resolved path are
appended.  Without dynamic-model support, or with no (or an empty) model
name, the tokens are returned unchanged. -/
theorem build_command_inject_spec (dir : String) (base : List String)
    (s f : String) (mo : Option String) (hsafe : safe_filename s = .ok f) :
    (∀ idx, base.findIdx? (fun tok => tok == "--model") = some idx →
      (idx + 1 < base.length →
        build_command dir true base (some s) =
          .ok (base.set (idx + 1) (joinPath dir f))) ∧
      (¬ idx + 1 < base.length →
        build_command dir true base (some s) =
          .ok (base ++ ["--model", joinPath dir f]))) ∧
    (base.findIdx? (fun tok => tok == "--model") = none →
      build_command dir true base (some s) =
        .ok (base ++ ["--model", joinPath dir f])) ∧
    build_command dir false base mo = .ok base ∧
    build_command dir true base none = .ok base ∧
    build_command dir true base (some "") = .ok base := by
  have hs : s ≠ "" := by
    intro h
    subst h
    have hempty : safe_filename "" = .error .invalidModel := by decide
    rw [hempty] at hsafe
    exact Except.noConfusion hsafe
  have hbc : build_command dir true base (some s) =
      .ok (injectModel base (joinPath dir f)) := by
    simp [build_command, hs, hsafe]
  refine ⟨?_, ?_, ?_, ?_, ?_⟩
  · intro idx hidx
    constructor
    · intro hlt
      rw [hbc]
      simp only [injectModel, hidx]
      rw [if_pos hlt]
    · intro hge
      rw [hbc]
      simp only [injectModel, hidx]
      rw [if_neg hge]
  · intro hnone
    rw [hbc]
    simp only [injectModel, hnone]
  · cases mo <;> simp [build_command]
  · simp [build_command]
  · simp [build_command]

theorem build_command_inject_spec_witness :
    safe_filename "x.gguf" = .ok "x.gguf" ∧
    build_command "/models" true ["srv", "--model", "old"] (some "x.gguf") =
      .ok (["srv", "--model", "old"].set 2 (joinPath "/models" "x.gguf")) ∧
    build_command "/models" true ["srv"] (some "x.gguf") =
      .ok (["srv"] ++ ["--model", joinPath "/models" "x.gguf"]) :=
  ⟨by decide,
   ((build_command_inject_spec "/models" ["srv", "--model", "old"] "x.gguf" "x.gguf" none
      (by decide)).1 1 (by decide)).1 (by decide),
   (build_command_inject_spec "/models" ["srv"] "x.gguf" "x.gguf" none
      (by decide)).2.1 (by decide)⟩

/-- C3 counterexample: "llm" supports dynamic models and the non-empty
requested model "a.gguf" differs from its `current_model`, but "llm" is not
the active backend, so the call takes the switch path: the other backend
"whisper" is stopped (its descriptor loses its live process handle) and no
stop of "llm" itself ever happens — refuting "exactly one stop of X ... and
no other registered backend's process or state is touched" as universally
stated. -/
theorem ensure_model_swap_cex :
    dLlm.supports_dynamic_model = true ∧
    some "a.gguf" ≠ dLlm.current_model ∧
    Ev.stopOne "llm" ∉
      (ensure_backend_with_model envBase mgrWhisperActive "llm" (some "a.gguf")).trace ∧
    Ev.stopOne "whisper" ∈
      (ensure_backend_with_model envBase mgrWhisperActive "llm" (some "a.gguf")).trace ∧
    dWhisperLive ∈ mgrWhisperActive.backends ∧
    dWhisperLive ∉
      (ensure_backend_with_model envBase mgrWhisperActive "llm" (some "a.gguf")).state.backends :=
  ⟨by decide, by decide, by decide, by decide, by decide, by decide⟩

/-- C3 (amended): when X is additionally the *active* backend, supports
dynamic models, the requested non-empty model differs from `current_model`,
the stop does not raise, a start command is configured, the model name passes
validation and the readiness wait succeeds, the call performs exactly one
stop of X followed by exactly one start of X with the new model argument,
then a readiness wait, then sets `current_model` — and no other registered
backend's descriptor is touched (`active_backend` and `busy` included). -/
theorem ensure_model_swap (env : Env) (m : Manager) (t : String) (d : Descriptor)
    (s f : String)
    (hfind : findBackend m t = some d)
    (hact : m.active_backend = some t)
    (hdyn : d.supports_dynamic_model = true)
    (hs : s ≠ "")
    (hnew : some s ≠ d.current_model)
    (hstop : env.stopRaises t = false)
    (hcmd : d.start_command ≠ [])
    (hsafe : safe_filename s = .ok f)
    (hwait : env.waitReady t = true) :
    (ensure_backend_with_model env m t (some s)).res = .ok () ∧
    (ensure_backend_with_model env m t (some s)).trace =
      [Ev.acquire, Ev.stopOne t, Ev.startOne t (some s),
       Ev.spawn t (injectModel d.start_command (joinPath env.models_dir f)),
       Ev.waitReady t true] ∧
    (ensure_backend_with_model env m t (some s)).state =
      updateBackend m
        { d with process := some ⟨env.newPid, true⟩, current_model := some s } ∧
    (ensure_backend_with_model env m t (some s)).state.active_backend =
      m.active_backend ∧
    (ensure_backend_with_model env m t (some s)).state.busy = m.busy ∧
    (∀ x ∈ m.backends, x.name ≠ t →
      x ∈ (ensure_backend_with_model env m t (some s)).state.backends) := by
  have hdname : d.name = t := findBackend_name hfind
  have hOk : stopOk env d = true := by
    unfold stopOk
    rw [hdname, hstop]
    simp
  have hstop1 : stop_one env d = .ok (stopped env d) := by
    rw [stop_one_eq, if_pos hOk]
  have hbcd : build_command env.models_dir d.supports_dynamic_model d.start_command
        (some s) = .ok (injectModel d.start_command (joinPath env.models_dir f)) := by
    rw [hdyn]
    simp [build_command, hs, hsafe]
  have hstart : start_one env (stopped env d) (some s) =
      .ok ({ d with process := some ⟨env.newPid, true⟩ }, true,
           [Ev.spawn t (injectModel d.start_command (joinPath env.models_dir f))]) := by
    unfold start_one
    rw [if_neg (by simp [stopped_not_alive env d]),
        stopped_start_command, stopped_dynamic, if_neg hcmd, hbcd]
    dsimp only
    unfold stopped
    split <;> simp [hdname]
  have hrun : ensure_backend_with_model env m t (some s) =
      ⟨updateBackend m
         { d with process := some ⟨env.newPid, true⟩, current_model := some s },
       [Ev.acquire, Ev.stopOne t, Ev.startOne t (some s),
        Ev.spawn t (injectModel d.start_command (joinPath env.models_dir f)),
        Ev.waitReady t true], .ok ()⟩ := by
    unfold ensure_backend_with_model
    simp only [hfind]
    rw [if_pos hact]
    unfold ensureActive
    rw [if_pos ⟨hdyn, by simp [truthy, hs], hnew⟩]
    simp only [hstop1, hstart, hdname]
    rw [if_pos hwait]
    simp
  rw [hrun]
  refine ⟨rfl, rfl, rfl, rfl, rfl, ?_⟩
  intro x hx hne
  exact mem_updateBackend hx (by simpa [hdname] using hne)

theorem ensure_model_swap_witness :
    findBackend mgrSwapReady "llm" = some dLlmActive ∧
    mgrSwapReady.active_backend = some "llm" ∧
    (ensure_backend_with_model envBase mgrSwapReady "llm" (some "b.gguf")).res = .ok () ∧
    (ensure_backend_with_model envBase mgrSwapReady "llm" (some "b.gguf")).trace =
      [Ev.acquire, Ev.stopOne "llm", Ev.startOne "llm" (some "b.gguf"),
       Ev.spawn "llm"
         (injectModel dLlmActive.start_command (joinPath envBase.models_dir "b.gguf")),
       Ev.waitReady "llm" true] :=
  ⟨by decide, by decide,
   (ensure_model_swap envBase mgrSwapReady "llm" dLlmActive "b.gguf" "b.gguf"
      (by decide) (by decide) (by decide) (by decide) (by decide) rfl (by decide)
      (by decide) rfl).1,
   (ensure_model_swap envBase mgrSwapReady "llm" dLlmActive "b.gguf" "b.gguf"
      (by decide) (by decide) (by decide) (by decide) (by decide) rfl (by decide)
      (by decide) rfl).2.1⟩

/-- C5 counterexample: stopping "whisper" raises; the stop loop aborts, so
"image" — next in registry order and holding a live process — is never
stopped, and the switch never attempts to start the target "llm" (the full
trace is acquire, busy-on, the one failing stop, busy-off).  This refutes
"a failure while stopping one of them does not abort stopping the remaining
ones ... the switch still proceeds to attempt starting the target". -/
theorem stop_failure_not_best_effort_cex :
    (ensure_backend_with_model envStopFail mgrStopFail "llm" none).res =
      .error (.stopFailed "whisper") ∧
    (ensure_backend_with_model envStopFail mgrStopFail "llm" none).trace =
      [Ev.acquire, Ev.busySet true, Ev.stopOne "whisper", Ev.busySet false] ∧
    dImageLive ∈ (ensure_backend_with_model envStopFail mgrStopFail "llm" none).state.backends ∧
    procAlive dImageLive.process = true :=
  ⟨by decide, by decide, by decide, by decide⟩

/-- C5 (amended): a failure while stopping one non-target backend aborts the
switch: the non-target backends after it in registry order are left exactly
as they were (not stopped), the target is never started, the stop error
propagates to the caller, `busy` is reset to false and `active_backend` is
unchanged. -/
theorem stop_failure_aborts_switch (env : Env) (m : Manager) (t : String)
    (d : Descriptor) (model : Option String)
    (pre : List Descriptor) (b : Descriptor) (post : List Descriptor)
    (hfind : findBackend m t = some d)
    (hact : m.active_backend ≠ some t)
    (hprobe0 : m.active_backend = none → env.probe 0 t = false)
    (hauto : env.auto_switch_backend = true)
    (hcmd : d.start_command ≠ [])
    (hsplit : m.backends = pre ++ b :: post)
    (hpre : ∀ x ∈ pre, x.name = t ∨ stopOk env x = true)
    (hb : ¬ b.name = t)
    (hfail : stopOk env b = false) :
    (ensure_backend_with_model env m t model).res = .error (.stopFailed b.name) ∧
    (ensure_backend_with_model env m t model).state.busy = false ∧
    (ensure_backend_with_model env m t model).state.active_backend =
      m.active_backend ∧
    (ensure_backend_with_model env m t model).state.backends =
      stopAllMap env t pre ++ b :: post ∧
    (∀ x ∈ post, x ∈ (ensure_backend_with_model env m t model).state.backends) ∧
    b ∈ (ensure_backend_with_model env m t model).state.backends ∧
    (∀ n mo, Ev.startOne n mo ∉ (ensure_backend_with_model env m t model).trace) := by
  have main : ∀ (tr : List Ev) (k : Nat),
      (doSwitch env m d t model tr k).res = .error (.stopFailed b.name) ∧
      (doSwitch env m d t model tr k).state.busy = false ∧
      (doSwitch env m d t model tr k).state.active_backend = m.active_backend ∧
      (doSwitch env m d t model tr k).state.backends =
        stopAllMap env t pre ++ b :: post ∧
      (∀ x ∈ post, x ∈ (doSwitch env m d t model tr k).state.backends) ∧
      b ∈ (doSwitch env m d t model tr k).state.backends ∧
      (∀ n mo, Ev.startOne n mo ∉ tr →
        Ev.startOne n mo ∉ (doSwitch env m d t model tr k).trace) := by
    intro tr k
    rw [doSwitch_stop_err env m d t model tr k pre b post hsplit hpre hb hfail]
    refine ⟨rfl, rfl, rfl, rfl, ?_, ?_, ?_⟩
    · intro x hx
      exact List.mem_append_right _ (List.mem_cons_of_mem _ hx)
    · exact List.mem_append_right _ (List.mem_cons_self _ _)
    · intro n mo hntr
      simp [List.mem_append, hntr]
  unfold ensure_backend_with_model
  simp only [hfind]
  rw [if_neg hact]
  by_cases hnone : m.active_backend = none
  · rw [if_pos hnone, if_neg (by simp [hprobe0 hnone])]
    unfold ensureSwitch
    rw [if_neg (by simp [hauto]), if_neg hcmd]
    have h := main [Ev.acquire, Ev.probe t false] 1
    exact ⟨h.1, h.2.1, h.2.2.1, h.2.2.2.1, h.2.2.2.2.1, h.2.2.2.2.2.1,
           fun n mo => h.2.2.2.2.2.2 n mo (by simp)⟩
  · rw [if_neg hnone]
    unfold ensureSwitch
    rw [if_neg (by simp [hauto]), if_neg hcmd]
    have h := main [Ev.acquire] 0
    exact ⟨h.1, h.2.1, h.2.2.1, h.2.2.2.1, h.2.2.2.2.1, h.2.2.2.2.2.1,
           fun n mo => h.2.2.2.2.2.2 n mo (by simp)⟩

theorem stop_failure_aborts_switch_witness :
    findBackend mgrStopFail "llm" = some dLlm ∧
    stopOk envStopFail dWhisperLive = false ∧
    (ensure_backend_with_model envStopFail mgrStopFail "llm" none).res =
      .error (.stopFailed "whisper") ∧
    (∀ x ∈ [dImageLive, dLlm],
      x ∈ (ensure_backend_with_model envStopFail mgrStopFail "llm" none).state.backends) :=
  ⟨by decide, by decide,
   (stop_failure_aborts_switch envStopFail mgrStopFail "llm" dLlm none
      [] dWhisperLive [dImageLive, dLlm] (by decide) (by decide) (by decide)
      (by decide) (by decide) (by decide) (by decide) (by decide) (by decide)).1,
   (stop_failure_aborts_switch envStopFail mgrStopFail "llm" dLlm none
      [] dWhisperLive [dImageLive, dLlm] (by decide) (by decide) (by decide)
      (by decide) (by decide) (by decide) (by decide) (by decide) (by decide)).2.2.2.2.1⟩

/-- C8 counterexample: "whisper" is active and gets stopped, then the
readiness wait for the target "llm" times out.  The failed call leaves
`active_backend = some "whisper"` — the stale name of the stopped former
backend — not none, refuting "active_backend reports none". -/
theorem no_rollback_active_stale_cex :
    (ensure_backend_with_model envWaitFail mgrWhisperActive "llm" none).res =
      .error (.backendTimeout "llm") ∧
    Ev.stopOne "whisper" ∈
      (ensure_backend_with_model envWaitFail mgrWhisperActive "llm" none).trace ∧
    (ensure_backend_with_model envWaitFail mgrWhisperActive "llm" none).state.active_backend =
      some "whisper" ∧
    some "whisper" ≠ (none : Option String) :=
  ⟨by decide, by decide, by decide, by decide⟩

/-- C8 (amended): if, during a switch, the call fails with any error after
the stop-others block was entered — starting the target fails (model
validation raising inside `_start_one`, or a start-command-less target whose
post-stop re-probe fails) or the readiness wait times out, with the target
freshly spawned or already alive — no rollback is performed: every
non-target backend is left without a live process, `busy` is reset, and
`active_backend` keeps its pre-call value (still naming the stopped former
backend when one was active; none when none was), rather than reporting
none. -/
theorem ensure_failed_switch_no_rollback (env : Env) (m : Manager) (t : String)
    (d : Descriptor) (model : Option String) (e : MErr)
    (hfind : findBackend m t = some d)
    (hact : m.active_backend ≠ some t)
    (hprobe0 : m.active_backend = none → env.probe 0 t = false)
    (hauto : env.auto_switch_backend = true)
    (hstops : ∀ x ∈ m.backends, x.name = t ∨ stopOk env x = true)
    (hentered : Ev.busySet true ∈ (ensure_backend_with_model env m t model).trace)
    (hfail : (ensure_backend_with_model env m t model).res = .error e) :
    (ensure_backend_with_model env m t model).state.active_backend =
      m.active_backend ∧
    (ensure_backend_with_model env m t model).state.busy = false ∧
    (∀ x ∈ (ensure_backend_with_model env m t model).state.backends,
      x.name ≠ t → procAlive x.process = false) := by
  have hdname : d.name = t := findBackend_name hfind
  unfold ensure_backend_with_model at hentered hfail ⊢
  simp only [hfind] at hentered hfail ⊢
  rw [if_neg hact] at hentered hfail ⊢
  by_cases hnone : m.active_backend = none
  · rw [if_pos hnone, if_neg (by simp [hprobe0 hnone])] at hentered hfail ⊢
    unfold ensureSwitch at hentered hfail ⊢
    rw [if_neg (by simp [hauto])] at hentered hfail ⊢
    by_cases hc : d.start_command = []
    · rw [if_pos hc] at hentered hfail ⊢
      by_cases hp : env.probe 1 t = false
      · rw [if_pos hp] at hentered
        exact absurd hentered (by simp)
      · rw [if_neg hp] at hfail ⊢
        exact doSwitch_error_no_rollback env m d t model _ _ e hdname hstops hfail
    · rw [if_neg hc] at hfail ⊢
      exact doSwitch_error_no_rollback env m d t model _ _ e hdname hstops hfail
  · rw [if_neg hnone] at hentered hfail ⊢
    unfold ensureSwitch at hentered hfail ⊢
    rw [if_neg (by simp [hauto])] at hentered hfail ⊢
    by_cases hc : d.start_command = []
    · rw [if_pos hc] at hentered hfail ⊢
      by_cases hp : env.probe 0 t = false
      · rw [if_pos hp] at hentered
        exact absurd hentered (by simp)
      · rw [if_neg hp] at hfail ⊢
        exact doSwitch_error_no_rollback env m d t model _ _ e hdname hstops hfail
    · rw [if_neg hc] at hfail ⊢
      exact doSwitch_error_no_rollback env m d t model _ _ e hdname hstops hfail

theorem ensure_failed_switch_no_rollback_witness :
    (ensure_backend_with_model envWaitFail mgrWhisperActive "llm" none).res =
      .error (.backendTimeout "llm") ∧
    Ev.busySet true ∈
      (ensure_backend_with_model envWaitFail mgrWhisperActive "llm" none).trace ∧
    (ensure_backend_with_model envWaitFail mgrWhisperActive "llm" none).state.active_backend =
      mgrWhisperActive.active_backend ∧
    (ensure_backend_with_model envProbeRace mgrWhisperImage "image" none).res =
      .error (.backendUnavailable "image") ∧
    (ensure_backend_with_model envProbeRace mgrWhisperImage "image" none).state.active_backend =
      mgrWhisperImage.active_backend :=
  ⟨by decide, by decide,
   (ensure_failed_switch_no_rollback envWaitFail mgrWhisperActive "llm" dLlm none
      (.backendTimeout "llm") (by decide) (by decide) (by decide) (by decide)
      (by decide) (by decide) (by decide)).1,
   by decide,
   (ensure_failed_switch_no_rollback envProbeRace mgrWhisperImage "image" dImageNoStart
      none (.backendUnavailable "image") (by decide) (by decide) (by decide) (by decide)
      (by decide) (by decide) (by decide)).1⟩

/-- C9 counterexample: the in-place model-swap path (target already active,
dynamic model change) stops and restarts the target's process with the busy
flag never set: its trace holds a stop but no `busySet` event at all, so
"every path ... that stops or starts a backend process sets busy to true
before the first stop/start" is false on the code. -/
theorem busy_not_set_on_swap_cex :
    Ev.stopOne "llm" ∈
      (ensure_backend_with_model envBase mgrSwapReady "llm" (some "b.gguf")).trace ∧
    busyBeforeActions
      (ensure_backend_with_model envBase mgrSwapReady "llm" (some "b.gguf")).trace =
      false ∧
    (∀ b, Ev.busySet b ∉
      (ensure_backend_with_model envBase mgrSwapReady "llm" (some "b.gguf")).trace) :=
  ⟨by decide, by decide, by decide⟩

/-- C9 (amended): starting from a non-busy state, every call leaves `busy`
false on completion or failure; and on the switch path (target not active,
adoption not taken, auto-switch allowed, pre-flight passed) busy is set true
before the first stop/start action.  The in-place model-swap path, however,
stops and restarts the target without ever setting busy (see the
counterexample). -/
theorem busy_flag_spec (env : Env) (m : Manager) (t : String) (d : Descriptor)
    (model : Option String)
    (hfind : findBackend m t = some d)
    (hbusy : m.busy = false) :
    (ensure_backend_with_model env m t model).state.busy = false ∧
    ((m.active_backend ≠ some t ∧ env.auto_switch_backend = true ∧
      (m.active_backend = none → env.probe 0 t = false) ∧
      (d.start_command = [] →
        env.probe (if m.active_backend = none then 1 else 0) t = true)) →
      busyBeforeActions (ensure_backend_with_model env m t model).trace = true) := by
  constructor
  · unfold ensure_backend_with_model
    simp only [hfind]
    by_cases h1 : m.active_backend = some t
    · rw [if_pos h1, ensureActive_busy]
      exact hbusy
    · rw [if_neg h1]
      by_cases h2 : m.active_backend = none
      · rw [if_pos h2]
        by_cases h3 : env.probe 0 t = true
        · rw [if_pos h3]
          exact hbusy
        · rw [if_neg h3]
          exact ensureSwitch_busy env m d t model _ 1 hbusy
      · rw [if_neg h2]
        exact ensureSwitch_busy env m d t model _ 0 hbusy
  · rintro ⟨hact, hauto, hprobe0, hpre⟩
    unfold ensure_backend_with_model
    simp only [hfind]
    rw [if_neg hact]
    by_cases h2 : m.active_backend = none
    · rw [if_pos h2, if_neg (by simp [hprobe0 h2])]
      refine ensureSwitch_busyBefore env m d t model _ 1 hauto ?_ ?_
      · intro hc
        have hp := hpre hc
        rwa [if_pos h2] at hp
      · intro l
        rfl
    · rw [if_neg h2]
      refine ensureSwitch_busyBefore env m d t model _ 0 hauto ?_ ?_
      · intro hc
        have hp := hpre hc
        rwa [if_neg h2] at hp
      · intro l
        rfl

theorem busy_flag_spec_witness :
    findBackend mgrWhisperActive "llm" = some dLlm ∧
    mgrWhisperActive.busy = false ∧
    (ensure_backend_with_model envBase mgrWhisperActive "llm" none).state.busy = false ∧
    busyBeforeActions
      (ensure_backend_with_model envBase mgrWhisperActive "llm" none).trace = true :=
  ⟨by decide, by decide,
   (busy_flag_spec envBase mgrWhisperActive "llm" dLlm none (by decide) (by decide)).1,
   (busy_flag_spec envBase mgrWhisperActive "llm" dLlm none (by decide) (by decide)).2
     ⟨by decide, by decide, by decide, by decide⟩⟩

end MeigaHub
